import Mathlib

/-!
Shallow embedding of the task/project management backend
(Meteor.js-Mongo-Learning): data model, mutation methods
(imports/api/methods/tasks.methods.ts, imports/api/projects/methods.ts)
and aggregation queries (the aggregations module), together with proofs
about the spec's claims.

Conventions of the embedding:
* Mongo documents become Lean structures; optional / possibly-absent
  fields become Option.
* Timestamps (Date values) are modelled as Int milliseconds; a "now"
  parameter stands for each call to new Date().
* Each Meteor method becomes a function AppState -> Except MeteorError ...;
  Except.error e models a thrown Meteor.Error of that kind.  In the source
  every throw happens before any write of the method body, so an error
  result leaves the state unchanged by construction.
* Fresh Mongo ids are passed in as explicit newId parameters.
-/

namespace MeteorApp

inductive Role
  | admin | manager | member
deriving DecidableEq, Repr

inductive TaskStatus
  | todo | in_progress | review | done
deriving DecidableEq, Repr

inductive Priority
  | low | medium | high
deriving DecidableEq, Repr

inductive ProjectStatus
  | active | completed | archived
deriving DecidableEq, Repr

/-- A user document: id plus the profile fields the methods read
(profile.role, profile.firstName, profile.lastName).  role is Option
because user.profile?.role may be absent. -/
structure User where
  id : String
  firstName : String
  lastName : String
  role : Option Role
deriving DecidableEq, Repr

structure ProjectMetadata where
  totalTasks : Nat
  completedTasks : Nat
  priority : Priority
deriving DecidableEq, Repr

structure Project where
  id : String
  name : String
  description : String
  ownerId : String
  teamMemberIds : List String
  status : ProjectStatus
  tags : List String
  metadata : ProjectMetadata
  createdAt : Int
  updatedAt : Option Int
deriving DecidableEq, Repr

structure Task where
  id : String
  projectId : String
  title : String
  description : String
  assignedToId : Option String
  status : TaskStatus
  priority : Priority
  dueDate : Option Int
  estimatedHours : Option ℚ
  actualHours : Option ℚ
  tags : List String
  createdBy : String
  createdAt : Int
  updatedAt : Option Int
  completedAt : Option Int
deriving DecidableEq, Repr

inductive LogAction
  | create | update | delete | complete | assign | comment
deriving DecidableEq, Repr

inductive EntityType
  | project | task
deriving DecidableEq, Repr

/-- An activity log entry (the free-form changes payload is not modelled;
no claim depends on it). -/
structure ActivityLog where
  userId : String
  action : LogAction
  entityType : EntityType
  entityId : String
  createdAt : Int
deriving DecidableEq, Repr

/-- The database: the users, projects, tasks and activityLogs collections. -/
structure AppState where
  users : List User
  projects : List Project
  tasks : List Task
  activityLogs : List ActivityLog
deriving DecidableEq, Repr

/-- The three domain error kinds of Meteor.Error in this codebase. -/
inductive MeteorError
  | notAuthorized | notFound | validationError
deriving DecidableEq, Repr

def findUser (s : AppState) (uid : String) : Option User :=
  s.users.find? fun u => decide (u.id = uid)

def findProject (s : AppState) (pid : String) : Option Project :=
  s.projects.find? fun p => decide (p.id = pid)

def findTask (s : AppState) (tid : String) : Option Task :=
  s.tasks.find? fun t => decide (t.id = tid)

/-- canModifyTask from tasks.methods.ts: admin, task creator, project
owner, or current assignee. -/
def canModifyTask (s : AppState) (userId : Option String) (task : Task) : Bool :=
  match userId with
  | none => false
  | some uid =>
    match findUser s uid with
    | none => false
    | some user =>
      if user.role = some Role.admin then true
      else if task.createdBy = uid then true
      else if (findProject s task.projectId).map Project.ownerId = some uid then true
      else if task.assignedToId = some uid then true
      else false

/-- canViewProjectTasks from tasks.methods.ts: admin, project owner, or
team member. -/
def canViewProjectTasks (s : AppState) (userId : Option String) (projectId : String) : Bool :=
  match userId with
  | none => false
  | some uid =>
    match findUser s uid with
    | none => false
    | some user =>
      if user.role = some Role.admin then true
      else
        match findProject s projectId with
        | none => false
        | some project =>
          if project.ownerId = uid then true
          else if uid ∈ project.teamMemberIds then true
          else false

/-- logTaskActivity from tasks.methods.ts (an ActivityLogsCollection.insert). -/
def logTaskActivity (s : AppState) (userId : String) (action : LogAction)
    (taskId : String) (now : Int) : AppState :=
  { s with activityLogs := s.activityLogs ++
      [{ userId := userId, action := action, entityType := EntityType.task,
         entityId := taskId, createdAt := now }] }

/-- logActivity from projects/methods.ts. -/
def logProjectActivity (s : AppState) (userId : String) (action : LogAction)
    (projectId : String) (now : Int) : AppState :=
  { s with activityLogs := s.activityLogs ++
      [{ userId := userId, action := action, entityType := EntityType.project,
         entityId := projectId, createdAt := now }] }

/-- projects.updateTaskCounters: full recompute of the denormalized
metadata counters from the tasks collection. -/
def updateTaskCounters (s : AppState) (projectId : String) (now : Int) : AppState :=
  let totalTasks := (s.tasks.filter fun t => decide (t.projectId = projectId)).length
  let completedTasks := (s.tasks.filter fun t =>
    decide (t.projectId = projectId) && decide (t.status = TaskStatus.done)).length
  { s with projects := s.projects.map fun p =>
      if p.id = projectId then
        { p with
          metadata := { p.metadata with
            totalTasks := totalTasks, completedTasks := completedTasks },
          updatedAt := some now }
      else p }

/-- JS String.prototype.trim: strip whitespace from both ends, modelled
on the character list so that it evaluates by kernel reduction. -/
def jsTrim (str : String) : String :=
  String.mk (((str.data.dropWhile Char.isWhitespace).reverse.dropWhile
    Char.isWhitespace).reverse)

/-- The argument object of tasks.insert (taskData). -/
structure NewTaskData where
  projectId : String
  title : String
  description : String
  assignedToId : Option String
  priority : Priority
  dueDate : Option Int
  estimatedHours : Option ℚ
  tags : List String
deriving DecidableEq, Repr

/-- The task document constructed by tasks.insert: spread of taskData,
then createdBy from the authenticated user, status forced to todo, and
a server-side createdAt. -/
def newTaskOf (uid : String) (d : NewTaskData) (newId : String) (now : Int) : Task :=
  { id := newId, projectId := d.projectId, title := d.title,
    description := d.description, assignedToId := d.assignedToId,
    status := TaskStatus.todo, priority := d.priority, dueDate := d.dueDate,
    estimatedHours := d.estimatedHours, actualHours := none, tags := d.tags,
    createdBy := uid, createdAt := now, updatedAt := none, completedAt := none }

/-- The write part of tasks.insert: insert the document, recompute the
project counters (after the insert), log creation, and log an assign
entry when the task was created assigned. -/
def tasksInsertWrite (s : AppState) (uid : String) (d : NewTaskData)
    (newId : String) (now : Int) : String × AppState :=
  let s1 := { s with tasks := s.tasks ++ [newTaskOf uid d newId now] }
  let s2 := updateTaskCounters s1 d.projectId now
  let s3 := logTaskActivity s2 uid LogAction.create newId now
  let s4 := match d.assignedToId with
    | some _ => logTaskActivity s3 uid LogAction.assign newId now
    | none => s3
  (newId, s4)

/-- Tail of tasks.insert after the assignee validation: the
estimatedHours positivity check, then the write.  (The past-due-date
check in the source only emits a console warning and has no effect.) -/
def tasksInsertFinish (s : AppState) (uid : String) (d : NewTaskData)
    (newId : String) (now : Int) : Except MeteorError (String × AppState) :=
  match d.estimatedHours with
  | some h =>
    if h ≤ 0 then Except.error MeteorError.validationError
    else Except.ok (tasksInsertWrite s uid d newId now)
  | none => Except.ok (tasksInsertWrite s uid d newId now)

/-- Meteor method tasks.insert. -/
def tasksInsert (s : AppState) (callerId : Option String) (d : NewTaskData)
    (newId : String) (now : Int) : Except MeteorError (String × AppState) :=
  match callerId with
  | none => Except.error MeteorError.notAuthorized
  | some uid =>
    if (jsTrim d.title).length < 3 then Except.error MeteorError.validationError
    else if 200 < d.title.length then Except.error MeteorError.validationError
    else if 2000 < d.description.length then Except.error MeteorError.validationError
    else
      match findProject s d.projectId with
      | none => Except.error MeteorError.notFound
      | some project =>
        if canViewProjectTasks s (some uid) d.projectId = false then
          Except.error MeteorError.notAuthorized
        else
          match d.assignedToId with
          | some aid =>
            match findUser s aid with
            | none => Except.error MeteorError.notFound
            | some _ =>
              if ¬ (project.ownerId = aid ∨ aid ∈ project.teamMemberIds) then
                Except.error MeteorError.validationError
              else tasksInsertFinish s uid d newId now
          | none => tasksInsertFinish s uid d newId now

/-- The updates object of tasks.update.  A none field is absent from the
update; assignedToId distinguishes absent (none), null / unassign
(some none) and reassignment (some (some id)). -/
structure TaskUpdates where
  title : Option String := none
  description : Option String := none
  status : Option TaskStatus := none
  priority : Option Priority := none
  dueDate : Option Int := none
  estimatedHours : Option ℚ := none
  actualHours : Option ℚ := none
  tags : Option (List String) := none
  assignedToId : Option (Option String) := none
deriving DecidableEq, Repr

/-- Object.keys(updates): the names of the fields present in the update,
in declaration order. -/
def attemptedFields (u : TaskUpdates) : List String :=
  (if u.title.isSome then ["title"] else []) ++
  (if u.description.isSome then ["description"] else []) ++
  (if u.status.isSome then ["status"] else []) ++
  (if u.priority.isSome then ["priority"] else []) ++
  (if u.dueDate.isSome then ["dueDate"] else []) ++
  (if u.estimatedHours.isSome then ["estimatedHours"] else []) ++
  (if u.actualHours.isSome then ["actualHours"] else []) ++
  (if u.tags.isSome then ["tags"] else []) ++
  (if u.assignedToId.isSome then ["assignedToId"] else [])

/-- The allowedFields list of the assignee restriction in tasks.update. -/
def allowedAssigneeFields : List String := ["status", "actualHours", "description"]

/-- Status change into done (sets completedAt): updates.status is done
and the stored status was not done. -/
def stampCond (u : TaskUpdates) (t : Task) : Bool :=
  decide (u.status = some TaskStatus.done) && !(decide (t.status = TaskStatus.done))

/-- Status change out of done (unsets completedAt): the stored status
was done and updates.status is present and not done. -/
def unstampCond (u : TaskUpdates) (t : Task) : Bool :=
  decide (t.status = TaskStatus.done) &&
    (match u.status with
     | some st => !(decide (st = TaskStatus.done))
     | none => false)

/-- The $set / $unset update object of tasks.update applied to a task
document: present fields overwrite, updatedAt is stamped, and
completedAt is set on stamp and removed on unstamp. -/
def applyTaskUpdates (t : Task) (u : TaskUpdates) (now : Int)
    (stamp : Bool) (unstamp : Bool) : Task :=
  { t with
    title := u.title.getD t.title,
    description := u.description.getD t.description,
    status := u.status.getD t.status,
    priority := u.priority.getD t.priority,
    dueDate := match u.dueDate with | some d => some d | none => t.dueDate,
    estimatedHours := match u.estimatedHours with | some h => some h | none => t.estimatedHours,
    actualHours := match u.actualHours with | some h => some h | none => t.actualHours,
    tags := u.tags.getD t.tags,
    assignedToId := match u.assignedToId with | some v => v | none => t.assignedToId,
    updatedAt := some now,
    completedAt := if stamp then some now else if unstamp then none else t.completedAt }

/-- The write part of tasks.update, in source order: on a transition
into done, log the completion and recompute the counters; on a
transition out of done, recompute the counters; both recomputes happen
BEFORE the task document is written (faithful to the source's line
order); then the document update, the assign log when the assignee
changed, and the general update log. -/
def tasksUpdateWrite (s : AppState) (uid : String) (taskId : String)
    (task : Task) (u : TaskUpdates) (now : Int) : AppState :=
  let stamp := stampCond u task
  let unstamp := unstampCond u task
  let s1 := if stamp then
      updateTaskCounters (logTaskActivity s uid LogAction.complete taskId now) task.projectId now
    else s
  let s2 := if unstamp then updateTaskCounters s1 task.projectId now else s1
  let s3 := { s2 with tasks := s2.tasks.map fun t =>
      if t.id = taskId then applyTaskUpdates t u now stamp unstamp else t }
  let s4 := match u.assignedToId with
    | some v => if v ≠ task.assignedToId then logTaskActivity s3 uid LogAction.assign taskId now else s3
    | none => s3
  if attemptedFields u ≠ [] then logTaskActivity s4 uid LogAction.update taskId now else s4

/-- Meteor method tasks.update. -/
def tasksUpdate (s : AppState) (callerId : Option String) (taskId : String)
    (u : TaskUpdates) (now : Int) : Except MeteorError AppState :=
  match callerId with
  | none => Except.error MeteorError.notAuthorized
  | some uid =>
    match findTask s taskId with
    | none => Except.error MeteorError.notFound
    | some task =>
      let isAssignee : Bool := decide (task.assignedToId = some uid)
      let canFullyModify := canModifyTask s (some uid) task
      if canFullyModify = false ∧ isAssignee = false then
        Except.error MeteorError.notAuthorized
      else if (isAssignee = true ∧ canFullyModify = false) ∧
          ((attemptedFields u).filter fun f => !(decide (f ∈ allowedAssigneeFields))) ≠ [] then
        Except.error MeteorError.notAuthorized
      else if (match u.title with
               | some ttl => decide ((jsTrim ttl).length < 3) || decide (200 < ttl.length)
               | none => false) = true then
        Except.error MeteorError.validationError
      else if (match u.description with
               | some dsc => decide (2000 < dsc.length)
               | none => false) = true then
        Except.error MeteorError.validationError
      else
        match u.assignedToId with
        | some (some newAid) =>
          match findProject s task.projectId with
          | none => Except.error MeteorError.notFound
          | some project =>
            match findUser s newAid with
            | none => Except.error MeteorError.notFound
            | some _ =>
              if ¬ (project.ownerId = newAid ∨ newAid ∈ project.teamMemberIds) then
                Except.error MeteorError.validationError
              else Except.ok (tasksUpdateWrite s uid taskId task u now)
        | _ => Except.ok (tasksUpdateWrite s uid taskId task u now)

/-- Meteor method tasks.remove.  The source also computes a canDelete
value from canModifyTask but never uses it; the effective permission is
exactly admin-or-creator. -/
def tasksRemove (s : AppState) (callerId : Option String) (taskId : String)
    (now : Int) : Except MeteorError AppState :=
  match callerId with
  | none => Except.error MeteorError.notAuthorized
  | some uid =>
    match findTask s taskId with
    | none => Except.error MeteorError.notFound
    | some task =>
      let isAdmin : Bool := match findUser s uid with
        | some user => decide (user.role = some Role.admin)
        | none => false
      let isCreator : Bool := decide (task.createdBy = uid)
      if isAdmin = false ∧ isCreator = false then
        Except.error MeteorError.notAuthorized
      else
        let s1 := { s with tasks := s.tasks.filter fun t => !(decide (t.id = taskId)) }
        let s2 := updateTaskCounters s1 task.projectId now
        Except.ok (logTaskActivity s2 uid LogAction.delete taskId now)

/-- The write part of tasks.assign: $set of assignedToId (null is
collapsed to undefined by the source's userIdToAssign-or-undefined) and
updatedAt, then the assign log. -/
def tasksAssignWrite (s : AppState) (uid : String) (taskId : String)
    (userIdToAssign : Option String) (now : Int) : AppState :=
  let s1 := { s with tasks := s.tasks.map fun t =>
      if t.id = taskId then { t with assignedToId := userIdToAssign, updatedAt := some now } else t }
  logTaskActivity s1 uid LogAction.assign taskId now

/-- Meteor method tasks.assign. -/
def tasksAssign (s : AppState) (callerId : Option String) (taskId : String)
    (userIdToAssign : Option String) (now : Int) : Except MeteorError AppState :=
  match callerId with
  | none => Except.error MeteorError.notAuthorized
  | some uid =>
    match findTask s taskId with
    | none => Except.error MeteorError.notFound
    | some task =>
      if canModifyTask s (some uid) task = false then
        Except.error MeteorError.notAuthorized
      else
        match userIdToAssign with
        | some aid =>
          match findProject s task.projectId with
          | none => Except.error MeteorError.notFound
          | some project =>
            match findUser s aid with
            | none => Except.error MeteorError.notFound
            | some _ =>
              if ¬ (project.ownerId = aid ∨ aid ∈ project.teamMemberIds) then
                Except.error MeteorError.validationError
              else Except.ok (tasksAssignWrite s uid taskId userIdToAssign now)
        | none => Except.ok (tasksAssignWrite s uid taskId userIdToAssign now)

/-- Meteor method tasks.logTime: $inc of actualHours (a missing field
counts as 0) plus updatedAt, then an update log. -/
def tasksLogTime (s : AppState) (callerId : Option String) (taskId : String)
    (hoursToAdd : ℚ) (now : Int) : Except MeteorError AppState :=
  match callerId with
  | none => Except.error MeteorError.notAuthorized
  | some uid =>
    if hoursToAdd ≤ 0 then Except.error MeteorError.validationError
    else
      match findTask s taskId with
      | none => Except.error MeteorError.notFound
      | some task =>
        let isAssignee : Bool := decide (task.assignedToId = some uid)
        let canModify := canModifyTask s (some uid) task
        if isAssignee = false ∧ canModify = false then
          Except.error MeteorError.notAuthorized
        else
          let s1 := { s with tasks := s.tasks.map fun t =>
              if t.id = taskId then
                { t with actualHours := some (t.actualHours.getD 0 + hoursToAdd),
                         updatedAt := some now }
              else t }
          Except.ok (logTaskActivity s1 uid LogAction.update taskId now)

/-- canModifyProject from projects/methods.ts: admin or project owner. -/
def canModifyProject (s : AppState) (userId : Option String) (project : Project) : Bool :=
  match userId with
  | none => false
  | some uid =>
    match findUser s uid with
    | none => false
    | some user =>
      if user.role = some Role.admin then true
      else if project.ownerId = uid then true
      else false

/-- The argument object of projects.insert (projectData). -/
structure NewProjectData where
  name : String
  description : String
  teamMemberIds : List String
  status : ProjectStatus
  tags : List String
deriving DecidableEq, Repr

/-- Meteor method projects.insert.  The team-member existence check is
the source's count of user documents whose _id is $in teamMemberIds,
compared with the length of the list. -/
def projectsInsert (s : AppState) (callerId : Option String) (d : NewProjectData)
    (newId : String) (now : Int) : Except MeteorError (String × AppState) :=
  match callerId with
  | none => Except.error MeteorError.notAuthorized
  | some uid =>
    let roleOk : Bool := match findUser s uid with
      | some user =>
        match user.role with
        | none => false
        | some r => !(decide (r = Role.member))
      | none => false
    if roleOk = false then Except.error MeteorError.notAuthorized
    else if (jsTrim d.name).length < 3 then Except.error MeteorError.validationError
    else if 100 < d.name.length then Except.error MeteorError.validationError
    else if (s.users.filter fun u => decide (u.id ∈ d.teamMemberIds)).length ≠
        d.teamMemberIds.length then
      Except.error MeteorError.validationError
    else
      let project : Project :=
        { id := newId, name := d.name, description := d.description,
          ownerId := uid, teamMemberIds := d.teamMemberIds, status := d.status,
          tags := d.tags,
          metadata := { totalTasks := 0, completedTasks := 0, priority := Priority.medium },
          createdAt := now, updatedAt := none }
      let s1 := { s with projects := s.projects ++ [project] }
      Except.ok (newId, logProjectActivity s1 uid LogAction.create newId now)

/-- Meteor method projects.remove: hard delete rejects when dependent
tasks exist; soft delete archives in place. -/
def projectsRemove (s : AppState) (callerId : Option String) (projectId : String)
    (hard : Bool) (now : Int) : Except MeteorError AppState :=
  match callerId with
  | none => Except.error MeteorError.notAuthorized
  | some uid =>
    match findProject s projectId with
    | none => Except.error MeteorError.notFound
    | some project =>
      if canModifyProject s (some uid) project = false then
        Except.error MeteorError.notAuthorized
      else if hard then
        let taskCount := (s.tasks.filter fun t => decide (t.projectId = projectId)).length
        if 0 < taskCount then Except.error MeteorError.validationError
        else
          let s1 := { s with projects := s.projects.filter fun p => !(decide (p.id = projectId)) }
          Except.ok (logProjectActivity s1 uid LogAction.delete projectId now)
      else
        let s1 := { s with projects := s.projects.map fun p =>
            if p.id = projectId then
              { p with status := ProjectStatus.archived, updatedAt := some now }
            else p }
        Except.ok (logProjectActivity s1 uid LogAction.update projectId now)

/-- Mongo $addToSet on an array field: append only when absent. -/
def addToSet (l : List String) (x : String) : List String :=
  if x ∈ l then l else l ++ [x]

/-- Meteor method projects.addTeamMember.  An already-member user is
rejected by the explicit validation before the $addToSet write. -/
def projectsAddTeamMember (s : AppState) (callerId : Option String)
    (projectId : String) (userIdToAdd : String) (now : Int) :
    Except MeteorError AppState :=
  match callerId with
  | none => Except.error MeteorError.notAuthorized
  | some uid =>
    match findProject s projectId with
    | none => Except.error MeteorError.notFound
    | some project =>
      if canModifyProject s (some uid) project = false then
        Except.error MeteorError.notAuthorized
      else
        match findUser s userIdToAdd with
        | none => Except.error MeteorError.notFound
        | some _ =>
          if userIdToAdd ∈ project.teamMemberIds then
            Except.error MeteorError.validationError
          else
            let s1 := { s with projects := s.projects.map fun p =>
                if p.id = projectId then
                  { p with teamMemberIds := addToSet p.teamMemberIds userIdToAdd,
                           updatedAt := some now }
                else p }
            Except.ok (logProjectActivity s1 uid LogAction.update projectId now)

/-- JS Math.round: round half toward positive infinity. -/
def jsRound (q : ℚ) : ℤ := ⌊q + 1/2⌋

/-- Math.round(q * 10) / 10 (one decimal, the day-average policy). -/
def jsRound1 (q : ℚ) : ℚ := (jsRound (q * 10) : ℚ) / 10

/-- Math.round(q * 100) / 100 (two decimals, the rate policy). -/
def jsRound2 (q : ℚ) : ℚ := (jsRound (q * 100) : ℚ) / 100

/-- A $group stage counting documents per key: one (key, count) pair per
distinct key, in order of first occurrence. -/
def groupCountBy {α κ : Type} [DecidableEq κ] (key : α → κ) (xs : List α) :
    List (κ × Nat) :=
  (xs.map key).dedup.map fun k => (k, (xs.filter fun x => decide (key x = k)).length)

/-- The reduce that turns the $group output into a fixed-key object,
starting from an all-zero initial object and assigning
acc[item.key] = item.count for each group. -/
def reduceCounts {κ : Type} [DecidableEq κ] (init : κ → Nat)
    (groups : List (κ × Nat)) : κ → Nat :=
  groups.foldl (fun acc item => fun k => if k = item.1 then item.2 else acc k) init

/-- Tasks assigned to the user ($match of aggregation 1 and 2 of
getUserStatistics). -/
def assignedPred (uid : String) : Task → Bool :=
  fun t => decide (t.assignedToId = some uid)

/-- Completed tasks of the user ($match of aggregation 3: assigned,
status done, completedAt exists). -/
def completedPred (uid : String) : Task → Bool :=
  fun t => assignedPred uid t && decide (t.status = TaskStatus.done) && t.completedAt.isSome

/-- Overdue tasks of the user (assigned, status $nin [done], dueDate in
the past). -/
def overduePred (uid : String) (now : Int) : Task → Bool :=
  fun t => assignedPred uid t && !(decide (t.status = TaskStatus.done)) &&
    (match t.dueDate with | some dd => decide (dd < now) | none => false)

/-- The result shape of getUserStatistics. -/
structure UserStats where
  totalTasksAssigned : Nat
  tasksByStatus : TaskStatus → Nat
  tasksByPriority : Priority → Nat
  averageCompletionDays : ℚ
  overdueCount : Nat

/-- getUserStatistics from the aggregations module, as a pure function of
the tasks collection and the current time.  The $sort stages only order
the group output and do not affect the reduced fixed-key objects, and
are omitted.  completionTime is completedAt - createdAt in milliseconds;
the average collapses to 0 when no completed task exists (the source's
completionTimes[0]?.avgTime or-zero). -/
def getUserStatistics (tasks : List Task) (userId : String) (now : Int) : UserStats :=
  let assigned := tasks.filter (assignedPred userId)
  let statusCounts := reduceCounts (fun _ => 0) (groupCountBy Task.status assigned)
  let priorityCounts := reduceCounts (fun _ => 0) (groupCountBy Task.priority assigned)
  let completed := tasks.filter (completedPred userId)
  let avgCompletionMs : ℚ :=
    if completed.length = 0 then 0
    else ((completed.map fun t => ((t.completedAt.getD 0 - t.createdAt : ℤ) : ℚ)).sum) /
      completed.length
  let avgCompletionDays := avgCompletionMs / (1000 * 60 * 60 * 24)
  { totalTasksAssigned := assigned.length
    tasksByStatus := statusCounts
    tasksByPriority := priorityCounts
    averageCompletionDays := jsRound1 avgCompletionDays
    overdueCount := (tasks.filter (overduePred userId now)).length }

/-- Tasks of the project ($match of getProjectStatistics). -/
def inProjectPred (pid : String) : Task → Bool :=
  fun t => decide (t.projectId = pid)

/-- One row of the tasksByAssignee output of getProjectStatistics. -/
structure AssigneeCount where
  userId : String
  count : Nat
  name : String
deriving DecidableEq, Repr

/-- The $sort count: -1 stage, as an insertion sort by count descending. -/
def insertByCountDesc (x : AssigneeCount) : List AssigneeCount → List AssigneeCount
  | [] => [x]
  | y :: ys => if y.count < x.count then x :: y :: ys else y :: insertByCountDesc x ys

def sortByCountDesc (l : List AssigneeCount) : List AssigneeCount :=
  l.foldr insertByCountDesc []

/-- The result shape of getProjectStatistics. -/
structure ProjectStats where
  totalTasks : Nat
  tasksByStatus : TaskStatus → Nat
  tasksByAssignee : List AssigneeCount
  completionRate : ℚ
  totalEstimatedHours : ℚ
  totalActualHours : ℚ
  averageEstimatedHours : ℚ

/-- getProjectStatistics from the aggregations module, as a pure function
of the users and tasks collections.  The $lookup with $unwind drops
assignee groups without a matching user document (the filterMap); Mongo
$sum over missing fields yields 0 and $avg over no values yields null,
which the source's or-zero turns into 0. -/
def getProjectStatistics (users : List User) (tasks : List Task)
    (projectId : String) : ProjectStats :=
  let inProject := tasks.filter (inProjectPred projectId)
  let totalTasks := inProject.length
  let statusCounts := reduceCounts (fun _ => 0) (groupCountBy Task.status inProject)
  let withAssignee := tasks.filter fun t => inProjectPred projectId t && t.assignedToId.isSome
  let grouped := groupCountBy (fun t => t.assignedToId.getD "") withAssignee
  let byAssignee := grouped.filterMap fun kv =>
    match users.find? fun u => decide (u.id = kv.1) with
    | some u => some { userId := kv.1, count := kv.2, name := u.firstName ++ " " ++ u.lastName }
    | none => none
  let completedTasks := statusCounts TaskStatus.done
  let completionRate : ℚ := if 0 < totalTasks then (completedTasks : ℚ) / totalTasks else 0
  let estVals := inProject.filterMap Task.estimatedHours
  let actVals := inProject.filterMap Task.actualHours
  { totalTasks := totalTasks
    tasksByStatus := statusCounts
    tasksByAssignee := sortByCountDesc byAssignee
    completionRate := jsRound2 completionRate
    totalEstimatedHours := estVals.sum
    totalActualHours := actVals.sum
    averageEstimatedHours :=
      jsRound1 (if estVals.length = 0 then 0 else estVals.sum / estVals.length) }

/-! ## Concrete fixtures

A small world: u1 owns project p1 with team member u2 and admin u3;
task t1 in p1 was created by u1 and is assigned to u2. -/

def uOwner : User :=
  { id := "u1", firstName := "Alice", lastName := "Anders", role := some Role.manager }

def uMem : User :=
  { id := "u2", firstName := "Bob", lastName := "Baker", role := some Role.member }

def uAdmin : User :=
  { id := "u3", firstName := "Carol", lastName := "Clark", role := some Role.admin }

def p1 : Project :=
  { id := "p1", name := "Demo project", description := "", ownerId := "u1",
    teamMemberIds := ["u2"], status := ProjectStatus.active, tags := [],
    metadata := { totalTasks := 1, completedTasks := 0, priority := Priority.medium },
    createdAt := 0, updatedAt := none }

def t1 : Task :=
  { id := "t1", projectId := "p1", title := "Task one", description := "",
    assignedToId := some "u2", status := TaskStatus.todo, priority := Priority.low,
    dueDate := none, estimatedHours := none, actualHours := none, tags := [],
    createdBy := "u1", createdAt := 0, updatedAt := none, completedAt := none }

def s0 : AppState :=
  { users := [uOwner, uMem, uAdmin], projects := [p1], tasks := [t1],
    activityLogs := [] }

/-! ## Basic projection lemmas -/

theorem updateTaskCounters_tasks (s : AppState) (pid : String) (now : Int) :
    (updateTaskCounters s pid now).tasks = s.tasks := rfl

theorem updateTaskCounters_users (s : AppState) (pid : String) (now : Int) :
    (updateTaskCounters s pid now).users = s.users := rfl

theorem logTaskActivity_tasks (s : AppState) (uid : String) (a : LogAction)
    (tid : String) (now : Int) : (logTaskActivity s uid a tid now).tasks = s.tasks := rfl

theorem logTaskActivity_projects (s : AppState) (uid : String) (a : LogAction)
    (tid : String) (now : Int) :
    (logTaskActivity s uid a tid now).projects = s.projects := rfl

theorem logProjectActivity_projects (s : AppState) (uid : String) (a : LogAction)
    (pid : String) (now : Int) :
    (logProjectActivity s uid a pid now).projects = s.projects := rfl

/-! ## Counting lemmas: the reduce of a $group count output -/

theorem reduceCounts_not_mem {κ : Type} [DecidableEq κ] (init : κ → Nat)
    (l : List (κ × Nat)) (k : κ) (hk : k ∉ l.map Prod.fst) :
    reduceCounts init l k = init k := by
  induction l generalizing init with
  | nil => rfl
  | cons p l ih =>
    simp only [List.map_cons, List.mem_cons, not_or] at hk
    have h1 : reduceCounts init (p :: l) k =
        reduceCounts (fun k' => if k' = p.1 then p.2 else init k') l k := rfl
    rw [h1, ih _ hk.2]
    simp [hk.1]

theorem reduceCounts_mem {κ : Type} [DecidableEq κ] (init : κ → Nat)
    (l : List (κ × Nat)) (k : κ) (n : Nat)
    (hnd : (l.map Prod.fst).Nodup) (hmem : (k, n) ∈ l) :
    reduceCounts init l k = n := by
  induction l generalizing init with
  | nil => simp at hmem
  | cons p l ih =>
    simp only [List.map_cons, List.nodup_cons] at hnd
    have h1 : reduceCounts init (p :: l) k =
        reduceCounts (fun k' => if k' = p.1 then p.2 else init k') l k := rfl
    rcases List.mem_cons.mp hmem with h | h
    · rw [h1, reduceCounts_not_mem]
      · rw [← h]; simp
      · rw [← h] at hnd; exact hnd.1
    · rw [h1]; exact ih _ hnd.2 h

theorem groupCountBy_keys {α κ : Type} [DecidableEq κ] (key : α → κ) (xs : List α) :
    (groupCountBy key xs).map Prod.fst = (xs.map key).dedup := by
  unfold groupCountBy
  rw [List.map_map]
  exact List.map_id _

/-- The reduced fixed-key object of a count $group is the plain filtered
count at every key. -/
theorem reduceCounts_groupCountBy {α κ : Type} [DecidableEq κ] (key : α → κ)
    (xs : List α) (k : κ) :
    reduceCounts (fun _ => 0) (groupCountBy key xs) k =
      (xs.filter fun x => decide (key x = k)).length := by
  by_cases hk : k ∈ (xs.map key).dedup
  · apply reduceCounts_mem
    · rw [groupCountBy_keys]; exact (xs.map key).nodup_dedup
    · exact List.mem_map.mpr ⟨k, hk, rfl⟩
  · rw [reduceCounts_not_mem]
    · have hempty : xs.filter (fun x => decide (key x = k)) = [] := by
        rw [List.filter_eq_nil_iff]
        intro x hx hdec
        rw [decide_eq_true_eq] at hdec
        exact hk (List.mem_dedup.mpr (List.mem_map.mpr ⟨x, hx, hdec⟩))
      rw [hempty]; rfl
    · rw [groupCountBy_keys]; exact hk

theorem jsRound2_zero : jsRound2 0 = 0 := by
  unfold jsRound2 jsRound
  norm_num

theorem jsRound1_zero : jsRound1 0 = 0 := by
  unfold jsRound1 jsRound
  norm_num

/-- C6: getProjectStatistics returns a completionRate that is exactly 0
for a project with zero tasks, and exactly the count of tasks with
status done divided by the total task count, rounded to 2 decimals, for
a project with at least one task; the division-by-zero case yields 0,
never an error. -/
theorem C6_completion_rate (users : List User) (tasks : List Task) (pid : String) :
    (tasks.filter (inProjectPred pid) = [] →
      (getProjectStatistics users tasks pid).completionRate = 0) ∧
    (0 < (tasks.filter (inProjectPred pid)).length →
      (getProjectStatistics users tasks pid).completionRate =
        jsRound2 ((((tasks.filter (inProjectPred pid)).filter fun t =>
            decide (t.status = TaskStatus.done)).length : ℚ) /
          ((tasks.filter (inProjectPred pid)).length : ℚ))) := by
  constructor
  · intro h
    simp only [getProjectStatistics, h]
    simp [jsRound2_zero]
  · intro h
    simp only [getProjectStatistics]
    rw [if_pos h]
    rw [reduceCounts_groupCountBy Task.status (tasks.filter (inProjectPred pid)) TaskStatus.done]

/-- A second task in p1, already done. -/
def t2done : Task :=
  { t1 with id := "t2", status := TaskStatus.done, completedAt := some 3 }

/-- C6 witness: a project with two tasks, one done, has completion rate
round2 of one half. -/
theorem C6_completion_rate_witness :
    0 < ([t1, t2done].filter (inProjectPred "p1")).length ∧
    (getProjectStatistics [uOwner, uMem] [t1, t2done] "p1").completionRate =
      jsRound2 (((([t1, t2done].filter (inProjectPred "p1")).filter fun t =>
            decide (t.status = TaskStatus.done)).length : ℚ) /
        (([t1, t2done].filter (inProjectPred "p1")).length : ℚ)) :=
  ⟨by decide, (C6_completion_rate [uOwner, uMem] [t1, t2done] "p1").2 (by decide)⟩

/-- C7: getUserStatistics yields averageCompletionDays 0 whenever the
user has no completed task, and for a user with zero assigned tasks it
returns all-zero counts for every status and priority key, zero total
and overdue counts, and averageCompletionDays exactly 0, rather than an
error. -/
theorem C7_user_stats_zero (tasks : List Task) (uid : String) (now : Int)
    (hc : tasks.filter (completedPred uid) = []) :
    (getUserStatistics tasks uid now).averageCompletionDays = 0 ∧
    (tasks.filter (assignedPred uid) = [] →
      (getUserStatistics tasks uid now).totalTasksAssigned = 0 ∧
      (getUserStatistics tasks uid now).tasksByStatus TaskStatus.todo = 0 ∧
      (getUserStatistics tasks uid now).tasksByStatus TaskStatus.in_progress = 0 ∧
      (getUserStatistics tasks uid now).tasksByStatus TaskStatus.review = 0 ∧
      (getUserStatistics tasks uid now).tasksByStatus TaskStatus.done = 0 ∧
      (getUserStatistics tasks uid now).tasksByPriority Priority.low = 0 ∧
      (getUserStatistics tasks uid now).tasksByPriority Priority.medium = 0 ∧
      (getUserStatistics tasks uid now).tasksByPriority Priority.high = 0 ∧
      (getUserStatistics tasks uid now).overdueCount = 0) := by
  constructor
  · simp only [getUserStatistics, hc]
    simp [jsRound1_zero]
  · intro ha
    have hover : tasks.filter (overduePred uid now) = [] := by
      rw [List.filter_eq_nil_iff]
      intro t ht hodec
      have hassigned : assignedPred uid t = true := by
        unfold overduePred at hodec
        exact Bool.and_elim_left (Bool.and_elim_left hodec)
      have : t ∈ tasks.filter (assignedPred uid) := List.mem_filter.mpr ⟨ht, hassigned⟩
      rw [ha] at this
      simp at this
    simp only [getUserStatistics, ha, hover]
    refine ⟨rfl, ?_, ?_, ?_, ?_, ?_, ?_, ?_, rfl⟩ <;>
      rw [reduceCounts_groupCountBy] <;> rfl

/-- C7 witness: on an empty tasks collection every count is zero and the
average is 0. -/
theorem C7_user_stats_zero_witness :
    ([] : List Task).filter (completedPred "u2") = [] ∧
    ((getUserStatistics [] "u2" 5).averageCompletionDays = 0 ∧
    (([] : List Task).filter (assignedPred "u2") = [] →
      (getUserStatistics [] "u2" 5).totalTasksAssigned = 0 ∧
      (getUserStatistics [] "u2" 5).tasksByStatus TaskStatus.todo = 0 ∧
      (getUserStatistics [] "u2" 5).tasksByStatus TaskStatus.in_progress = 0 ∧
      (getUserStatistics [] "u2" 5).tasksByStatus TaskStatus.review = 0 ∧
      (getUserStatistics [] "u2" 5).tasksByStatus TaskStatus.done = 0 ∧
      (getUserStatistics [] "u2" 5).tasksByPriority Priority.low = 0 ∧
      (getUserStatistics [] "u2" 5).tasksByPriority Priority.medium = 0 ∧
      (getUserStatistics [] "u2" 5).tasksByPriority Priority.high = 0 ∧
      (getUserStatistics [] "u2" 5).overdueCount = 0)) :=
  ⟨rfl, C7_user_stats_zero [] "u2" 5 rfl⟩

/-- C1 (claim refuted at the source's behavior): caller u2 is the
current assignee of t1 but not an admin, not the task creator and not
the project owner, and requests an update whose only field, priority, is
outside the assignee allowlist — yet tasks.update accepts the update and
writes the new priority.  The allowlist check in the source is
unreachable, because canModifyTask already returns true for the assignee
and so canFullyModify is never false for an assignee with a user
document. -/
theorem C1_assignee_priority_update_accepted :
    ((tasksUpdate s0 (some "u2") "t1" { priority := some Priority.high } 5).toOption.bind
      fun s => (s.tasks.find? fun t => decide (t.id = "t1")).map fun t => t.priority) =
      some Priority.high := by decide

/-- C2 (claim refuted at the source's behavior): the project owner u1
moves t1 from todo to done through tasks.update; the method recomputes
the denormalized counters BEFORE writing the status change, so
immediately after the call p1.metadata.completedTasks is still 0 while
the count of done tasks of p1 is 1 (and the task did get its completedAt
stamp). -/
theorem C2_stale_completed_counter :
    ((tasksUpdate s0 (some "u1") "t1" { status := some TaskStatus.done } 5).toOption.map
      fun s =>
        ((s.projects.find? fun p => decide (p.id = "p1")).map fun p => p.metadata.completedTasks,
         (s.tasks.filter fun t =>
           decide (t.projectId = "p1") && decide (t.status = TaskStatus.done)).length,
         (s.tasks.find? fun t => decide (t.id = "t1")).map fun t => t.completedAt)) =
      some (some 0, 1, some (some 5)) := by decide

/-- C8: tasks.remove of an existing task by an authenticated caller
throws not-authorized if and only if the caller is neither the task's
creator nor an admin; in particular being project owner or current
assignee does not by itself permit deletion.  (Every throw of the method
happens before the remove, so an error result leaves the tasks
collection unchanged by the embedding's convention.) -/
theorem C8_remove_only_creator_or_admin (s : AppState) (uid taskId : String)
    (now : Int) (task : Task) (ht : findTask s taskId = some task) :
    tasksRemove s (some uid) taskId now = Except.error MeteorError.notAuthorized ↔
      ¬((∃ user, findUser s uid = some user ∧ user.role = some Role.admin) ∨
        task.createdBy = uid) := by
  unfold tasksRemove
  rw [ht]
  rcases hfu : findUser s uid with _ | user
  · by_cases hc : task.createdBy = uid <;> simp [hfu, hc]
  · by_cases hr : user.role = some Role.admin <;>
      by_cases hc : task.createdBy = uid <;>
      simp [hfu, hr, hc]

/-- C8 witness: u2 is the project owner of p1 in s8 and the assignee of
t1, but neither creator nor admin, and tasks.remove rejects with
not-authorized. -/
theorem C8_remove_only_creator_or_admin_witness :
    findTask { s0 with projects := [{ p1 with ownerId := "u2" }] } "t1" = some t1 ∧
    (tasksRemove { s0 with projects := [{ p1 with ownerId := "u2" }] } (some "u2") "t1" 5 =
        Except.error MeteorError.notAuthorized ↔
      ¬((∃ user, findUser { s0 with projects := [{ p1 with ownerId := "u2" }] } "u2" =
          some user ∧ user.role = some Role.admin) ∨ t1.createdBy = "u2")) :=
  ⟨rfl, C8_remove_only_creator_or_admin
    { s0 with projects := [{ p1 with ownerId := "u2" }] } "u2" "t1" 5 t1 rfl⟩

/-- C10: projects.insert throws not-authorized exactly when the
authenticated caller's user document has no role or role member; only
managers and admins pass the creation role check. -/
theorem C10_project_insert_role (s : AppState) (uid : String) (d : NewProjectData)
    (newId : String) (now : Int) (user : User) (hu : findUser s uid = some user) :
    projectsInsert s (some uid) d newId now = Except.error MeteorError.notAuthorized ↔
      (user.role = none ∨ user.role = some Role.member) := by
  unfold projectsInsert
  simp only [hu]
  rcases hr : user.role with _ | r
  · simp
  · simp only [hr]
    by_cases hm : r = Role.member
    · subst hm; simp
    · have hb : (!decide (r = Role.member)) = true := by simp [hm]
      simp only [hb]
      constructor
      · intro h
        rw [if_neg (by simp)] at h
        repeat' split at h
        all_goals simp_all
      · intro h
        simp at h
        exact absurd h hm

/-- A valid projectData argument. -/
def dNewProject : NewProjectData :=
  { name := "Brand new project", description := "", teamMemberIds := [],
    status := ProjectStatus.active, tags := [] }

/-- C10 witness: member-role caller u2 is rejected with not-authorized. -/
theorem C10_project_insert_role_witness :
    findUser s0 "u2" = some uMem ∧
    (projectsInsert s0 (some "u2") dNewProject "p9" 5 =
        Except.error MeteorError.notAuthorized ↔
      (uMem.role = none ∨ uMem.role = some Role.member)) :=
  ⟨rfl, C10_project_insert_role s0 "u2" dNewProject "p9" 5 uMem rfl⟩

/-- find? after an id-targeted update map: updating the matching document
in place rewrites the found document through the update function, when
the update function preserves the id. -/
theorem find?_map_update_id (ps : List Project) (pid : String) (f : Project → Project)
    (hf : ∀ q, (f q).id = q.id) (p : Project)
    (hp : ps.find? (fun q => decide (q.id = pid)) = some p) :
    (ps.map fun q => if q.id = pid then f q else q).find?
      (fun q => decide (q.id = pid)) = some (f p) := by
  induction ps with
  | nil => simp at hp
  | cons q qs ih =>
    by_cases h : q.id = pid
    · rw [List.find?_cons_of_pos _ (by simp [h])] at hp
      rw [Option.some_inj] at hp
      simp only [List.map_cons, if_pos h]
      rw [List.find?_cons_of_pos _ (by simp [hf, h]), hp]
    · rw [List.find?_cons_of_neg _ (by simp [h])] at hp
      simp only [List.map_cons, if_neg h]
      rw [List.find?_cons_of_neg _ (by simp [h])]
      exact ih hp

/-- C4: for an authorized caller (owner or admin, i.e. canModifyProject),
projects.remove with hard = true on a project with at least one
dependent task is rejected with validation-error (leaving the state
unchanged), while projects.remove with hard = false always succeeds,
keeps the project document and sets its status to archived. -/
theorem C4_project_remove (s : AppState) (uid pid : String) (now : Int) (p : Project)
    (hp : findProject s pid = some p)
    (hcan : canModifyProject s (some uid) p = true) :
    (0 < (s.tasks.filter fun t => decide (t.projectId = pid)).length →
      projectsRemove s (some uid) pid true now = Except.error MeteorError.validationError) ∧
    (∃ s', projectsRemove s (some uid) pid false now = Except.ok s' ∧
      s'.projects.length = s.projects.length ∧
      findProject s' pid =
        some { p with status := ProjectStatus.archived, updatedAt := some now }) := by
  have hcan' : ¬(canModifyProject s (some uid) p = false) := by simp [hcan]
  constructor
  · intro h
    simp only [projectsRemove, hp]
    rw [if_neg hcan']
    simp only [if_true]
    rw [if_pos h]
  · simp only [projectsRemove, hp]
    rw [if_neg hcan', if_neg (by simp)]
    refine ⟨_, rfl, ?_, ?_⟩
    · simp [logProjectActivity]
    · show (logProjectActivity _ uid LogAction.update pid now).projects.find? _ = _
      rw [logProjectActivity_projects]
      exact find?_map_update_id s.projects pid
        (fun q => { q with status := ProjectStatus.archived, updatedAt := some now })
        (fun q => rfl) p hp

/-- C4 witness: in s0, p1 has one task, so a hard remove by the owner is
rejected with validation-error, and the soft remove archives p1. -/
theorem C4_project_remove_witness :
    findProject s0 "p1" = some p1 ∧
    canModifyProject s0 (some "u1") p1 = true ∧
    ((0 < (s0.tasks.filter fun t => decide (t.projectId = "p1")).length →
      projectsRemove s0 (some "u1") "p1" true 5 = Except.error MeteorError.validationError) ∧
    (∃ s', projectsRemove s0 (some "u1") "p1" false 5 = Except.ok s' ∧
      s'.projects.length = s0.projects.length ∧
      findProject s' "p1" =
        some { p1 with status := ProjectStatus.archived, updatedAt := some 5 })) :=
  ⟨rfl, by decide, C4_project_remove s0 "u1" "p1" 5 p1 rfl (by decide)⟩

/-- The kind of a thrown error, none for success (used to state concrete
outcomes decidably). -/
def errorKind {α : Type} : Except MeteorError α → Option MeteorError
  | Except.error k => some k
  | Except.ok _ => none

/-- C5 counterexample: u2 is already a team member of p1, and
projects.addTeamMember then FAILS with validation-error (the claim says
the add does not fail), before the $addToSet write. -/
theorem C5_duplicate_add_is_rejected :
    errorKind (projectsAddTeamMember s0 (some "u1") "p1" "u2" 5) =
      some MeteorError.validationError := by decide

/-- C5 amended: for an authorized caller and an existing user,
projects.addTeamMember rejects a user already in teamMemberIds with
validation-error (leaving the membership unchanged, so no duplicate is
ever created), and appends exactly one entry for a user not yet a
member. -/
theorem C5_amended_add_member (s : AppState) (uid pid u : String) (now : Int)
    (p : Project) (hp : findProject s pid = some p)
    (hcan : canModifyProject s (some uid) p = true)
    (hu : ∃ w, findUser s u = some w) :
    (u ∈ p.teamMemberIds →
      projectsAddTeamMember s (some uid) pid u now =
        Except.error MeteorError.validationError) ∧
    (u ∉ p.teamMemberIds →
      ∃ s', projectsAddTeamMember s (some uid) pid u now = Except.ok s' ∧
        s'.projects.length = s.projects.length ∧
        findProject s' pid =
          some { p with teamMemberIds := p.teamMemberIds ++ [u],
                        updatedAt := some now }) := by
  obtain ⟨w, hw⟩ := hu
  have hcan' : ¬(canModifyProject s (some uid) p = false) := by simp [hcan]
  constructor
  · intro hmem
    simp only [projectsAddTeamMember, hp, hw]
    rw [if_neg hcan', if_pos hmem]
  · intro hmem
    simp only [projectsAddTeamMember, hp, hw]
    rw [if_neg hcan', if_neg hmem]
    refine ⟨_, rfl, ?_, ?_⟩
    · simp [logProjectActivity]
    · show (logProjectActivity _ uid LogAction.update pid now).projects.find? _ = _
      rw [logProjectActivity_projects]
      have hset : addToSet p.teamMemberIds u = p.teamMemberIds ++ [u] := by
        unfold addToSet; rw [if_neg hmem]
      have := find?_map_update_id s.projects pid
        (fun q => { q with teamMemberIds := addToSet q.teamMemberIds u,
                           updatedAt := some now })
        (fun q => rfl) p hp
      rw [this]
      simp only [hset]

/-- C5 amended witness: u3 is not yet a member of p1 and is appended;
adding the already-member u2 errors. -/
theorem C5_amended_add_member_witness :
    findProject s0 "p1" = some p1 ∧
    canModifyProject s0 (some "u1") p1 = true ∧
    (∃ w, findUser s0 "u3" = some w) ∧
    (("u3" ∈ p1.teamMemberIds →
      projectsAddTeamMember s0 (some "u1") "p1" "u3" 5 =
        Except.error MeteorError.validationError) ∧
    ("u3" ∉ p1.teamMemberIds →
      ∃ s', projectsAddTeamMember s0 (some "u1") "p1" "u3" 5 = Except.ok s' ∧
        s'.projects.length = s0.projects.length ∧
        findProject s' "p1" =
          some { p1 with teamMemberIds := p1.teamMemberIds ++ ["u3"],
                         updatedAt := some 5 })) :=
  ⟨rfl, by decide, ⟨uAdmin, rfl⟩,
   C5_amended_add_member s0 "u1" "p1" "u3" 5 p1 rfl (by decide) ⟨uAdmin, rfl⟩⟩

/-! ## Inversion lemmas for the ok results of the task mutations -/

theorem tasksInsertWrite_snd_tasks (s : AppState) (uid : String) (d : NewTaskData)
    (newId : String) (now : Int) :
    (tasksInsertWrite s uid d newId now).2.tasks =
      s.tasks ++ [newTaskOf uid d newId now] := by
  unfold tasksInsertWrite
  rcases d.assignedToId with _ | aid <;> rfl

theorem tasksInsertFinish_ok (s : AppState) (uid : String) (d : NewTaskData)
    (newId : String) (now : Int) (r : String × AppState)
    (hok : tasksInsertFinish s uid d newId now = Except.ok r) :
    r = tasksInsertWrite s uid d newId now := by
  unfold tasksInsertFinish at hok
  repeat' split at hok
  all_goals try (exfalso; exact Except.noConfusion hok)
  all_goals (injection hok with h; exact h.symm)

theorem tasksInsert_ok (s : AppState) (c : Option String) (d : NewTaskData)
    (newId : String) (now : Int) (r : String × AppState)
    (hok : tasksInsert s c d newId now = Except.ok r) :
    ∃ uid, c = some uid ∧ r = tasksInsertWrite s uid d newId now := by
  rcases c with _ | uid
  · simp [tasksInsert] at hok
  · refine ⟨uid, rfl, ?_⟩
    simp only [tasksInsert] at hok
    repeat' split at hok
    all_goals try (exfalso; exact Except.noConfusion hok)
    all_goals exact tasksInsertFinish_ok _ _ _ _ _ _ hok

/-- C9: every task created through a successful tasks.insert is appended
with status todo, createdBy the authenticated caller and no completedAt,
whatever the supplied arguments were. -/
theorem C9_insert_defaults (s : AppState) (c : Option String) (d : NewTaskData)
    (newId : String) (now : Int) (r : String × AppState)
    (hok : tasksInsert s c d newId now = Except.ok r) :
    ∃ uid, c = some uid ∧
      r.1 = newId ∧
      r.2.tasks = s.tasks ++ [newTaskOf uid d newId now] ∧
      (newTaskOf uid d newId now).status = TaskStatus.todo ∧
      (newTaskOf uid d newId now).createdBy = uid ∧
      (newTaskOf uid d newId now).completedAt = none := by
  obtain ⟨uid, hc, hr⟩ := tasksInsert_ok s c d newId now r hok
  refine ⟨uid, hc, ?_, ?_, rfl, rfl, rfl⟩
  · rw [hr]
    unfold tasksInsertWrite
    rcases d.assignedToId with _ | aid <;> rfl
  · rw [hr]
    exact tasksInsertWrite_snd_tasks s uid d newId now

/-- A valid taskData argument. -/
def dNewTask : NewTaskData :=
  { projectId := "p1", title := "Another task", description := "",
    assignedToId := none, priority := Priority.low, dueDate := none,
    estimatedHours := none, tags := [] }

instance {ε α : Type} [DecidableEq ε] [DecidableEq α] : DecidableEq (Except ε α)
  | Except.error e, Except.error f =>
    if h : e = f then Decidable.isTrue (by rw [h]) else Decidable.isFalse (by simp [h])
  | Except.error _, Except.ok _ => Decidable.isFalse (by simp)
  | Except.ok _, Except.error _ => Decidable.isFalse (by simp)
  | Except.ok a, Except.ok b =>
    if h : a = b then Decidable.isTrue (by rw [h]) else Decidable.isFalse (by simp [h])

/-- C9 witness: a concrete successful insert by u1. -/
theorem C9_insert_defaults_witness :
    tasksInsert s0 (some "u1") dNewTask "t9" 5 =
      Except.ok (tasksInsertWrite s0 "u1" dNewTask "t9" 5) ∧
    (∃ uid, (some "u1" : Option String) = some uid ∧
      (tasksInsertWrite s0 "u1" dNewTask "t9" 5).1 = "t9" ∧
      (tasksInsertWrite s0 "u1" dNewTask "t9" 5).2.tasks =
        s0.tasks ++ [newTaskOf uid dNewTask "t9" 5] ∧
      (newTaskOf uid dNewTask "t9" 5).status = TaskStatus.todo ∧
      (newTaskOf uid dNewTask "t9" 5).createdBy = uid ∧
      (newTaskOf uid dNewTask "t9" 5).completedAt = none) :=
  ⟨by decide,
   C9_insert_defaults s0 (some "u1") dNewTask "t9" 5
     (tasksInsertWrite s0 "u1" dNewTask "t9" 5) (by decide)⟩

/-! ## C3: the completedAt lifecycle invariant -/

/-- The spec invariant: completedAt is set exactly when the status is
done. -/
def completedAtOk (t : Task) : Prop :=
  t.status = TaskStatus.done ↔ t.completedAt ≠ none

instance (t : Task) : Decidable (completedAtOk t) := by
  unfold completedAtOk; infer_instance

/-- With unique task ids (a Mongo _id guarantee), any member with the
looked-up id is the document find? returned. -/
theorem mem_eq_of_findTask (s : AppState) (tid : String) (task : Task)
    (hnd : (s.tasks.map Task.id).Nodup) (hf : findTask s tid = some task)
    (t : Task) (ht : t ∈ s.tasks) (hid : t.id = tid) : t = task := by
  have h1 : task ∈ s.tasks := List.mem_of_find?_eq_some hf
  have h2 : task.id = tid := by simpa using List.find?_some hf
  exact List.inj_on_of_nodup_map hnd ht h1 (by rw [hid, h2])

theorem applyTaskUpdates_completedAt (t : Task) (u : TaskUpdates) (now : Int)
    (stamp unstamp : Bool) :
    (applyTaskUpdates t u now stamp unstamp).completedAt =
      if stamp then some now else if unstamp then none else t.completedAt := rfl

theorem applyTaskUpdates_status (t : Task) (u : TaskUpdates) (now : Int)
    (stamp unstamp : Bool) :
    (applyTaskUpdates t u now stamp unstamp).status = u.status.getD t.status := rfl

/-- A status transition out of done excludes a simultaneous transition
into done. -/
theorem stampCond_false_of_unstamp (u : TaskUpdates) (t : Task)
    (h : unstampCond u t = true) : stampCond u t = false := by
  unfold unstampCond at h
  have hdone : decide (t.status = TaskStatus.done) = true := Bool.and_elim_left h
  unfold stampCond
  simp [hdone]

/-- The update object of tasks.update preserves the completedAt
invariant of the updated document. -/
theorem applyTaskUpdates_completedAtOk (t : Task) (u : TaskUpdates) (now : Int)
    (ht : completedAtOk t) :
    completedAtOk (applyTaskUpdates t u now (stampCond u t) (unstampCond u t)) := by
  unfold completedAtOk at *
  rw [applyTaskUpdates_completedAt, applyTaskUpdates_status]
  unfold stampCond unstampCond
  rcases hu : u.status with _ | st
  · simpa using ht
  · by_cases hst : st = TaskStatus.done
    · subst hst
      by_cases htd : t.status = TaskStatus.done
      · simp only [htd]
        simpa [htd] using ht
      · simp [htd]
    · by_cases htd : t.status = TaskStatus.done
      · simp [htd, hst]
      · simp only [htd, hst]
        simpa [htd, hst] using ht

theorem tasksUpdateWrite_tasks (s : AppState) (uid taskId : String) (task : Task)
    (u : TaskUpdates) (now : Int) :
    (tasksUpdateWrite s uid taskId task u now).tasks =
      s.tasks.map fun t => if t.id = taskId
        then applyTaskUpdates t u now (stampCond u task) (unstampCond u task)
        else t := by
  simp only [tasksUpdateWrite]
  repeat' split
  all_goals rfl

theorem tasksUpdate_ok (s : AppState) (c : Option String) (taskId : String)
    (u : TaskUpdates) (now : Int) (s' : AppState)
    (hok : tasksUpdate s c taskId u now = Except.ok s') :
    ∃ uid task, c = some uid ∧ findTask s taskId = some task ∧
      s' = tasksUpdateWrite s uid taskId task u now := by
  rcases c with _ | uid
  · simp [tasksUpdate] at hok
  · simp only [tasksUpdate] at hok
    repeat' split at hok
    all_goals try (exfalso; exact Except.noConfusion hok)
    all_goals (injection hok with h; exact ⟨uid, _, rfl, by assumption, h.symm⟩)

theorem tasksAssignWrite_tasks (s : AppState) (uid taskId : String)
    (aid : Option String) (now : Int) :
    (tasksAssignWrite s uid taskId aid now).tasks =
      s.tasks.map fun t => if t.id = taskId
        then { t with assignedToId := aid, updatedAt := some now } else t := rfl

theorem tasksAssign_ok (s : AppState) (c : Option String) (taskId : String)
    (aid : Option String) (now : Int) (s' : AppState)
    (hok : tasksAssign s c taskId aid now = Except.ok s') :
    ∃ uid, c = some uid ∧ s' = tasksAssignWrite s uid taskId aid now := by
  rcases c with _ | uid
  · simp [tasksAssign] at hok
  · simp only [tasksAssign] at hok
    repeat' split at hok
    all_goals try (exfalso; exact Except.noConfusion hok)
    all_goals (injection hok with h; exact ⟨uid, rfl, h.symm⟩)

theorem tasksLogTime_ok (s : AppState) (c : Option String) (taskId : String)
    (hrs : ℚ) (now : Int) (s' : AppState)
    (hok : tasksLogTime s c taskId hrs now = Except.ok s') :
    ∃ uid, c = some uid ∧
      s'.tasks = s.tasks.map fun t => if t.id = taskId
        then { t with actualHours := some (t.actualHours.getD 0 + hrs),
                      updatedAt := some now }
        else t := by
  rcases c with _ | uid
  · simp [tasksLogTime] at hok
  · simp only [tasksLogTime] at hok
    repeat' split at hok
    all_goals try (exfalso; exact Except.noConfusion hok)
    all_goals (injection hok with h; exact ⟨uid, rfl, by rw [← h]; rfl⟩)

theorem tasksRemove_ok (s : AppState) (c : Option String) (taskId : String)
    (now : Int) (s' : AppState)
    (hok : tasksRemove s c taskId now = Except.ok s') :
    ∃ uid, c = some uid ∧
      s'.tasks = s.tasks.filter fun t => !(decide (t.id = taskId)) := by
  rcases c with _ | uid
  · simp [tasksRemove] at hok
  · simp only [tasksRemove] at hok
    repeat' split at hok
    all_goals try (exfalso; exact Except.noConfusion hok)
    all_goals (injection hok with h; exact ⟨uid, rfl, by rw [← h]; rfl⟩)

/-- C3: under unique task ids, every mutation of the tasks collection
(tasks.insert, tasks.update, tasks.assign, tasks.logTime, tasks.remove)
preserves the invariant that completedAt is set exactly on tasks with
status done; moreover tasks.update stamps completedAt = now exactly on a
transition into done and clears it on a transition out of done. -/
theorem C3_completedAt_lifecycle (s : AppState)
    (hnd : (s.tasks.map Task.id).Nodup)
    (hs : ∀ t ∈ s.tasks, completedAtOk t) :
    (∀ c d newId now r, tasksInsert s c d newId now = Except.ok r →
      ∀ t ∈ r.2.tasks, completedAtOk t) ∧
    (∀ c taskId u now s', tasksUpdate s c taskId u now = Except.ok s' →
      ((∀ t ∈ s'.tasks, completedAtOk t) ∧
       (∀ task, findTask s taskId = some task →
         ∀ t' ∈ s'.tasks, t'.id = taskId →
           (stampCond u task = true → t'.completedAt = some now) ∧
           (unstampCond u task = true → t'.completedAt = none)))) ∧
    (∀ c taskId aid now s', tasksAssign s c taskId aid now = Except.ok s' →
      ∀ t ∈ s'.tasks, completedAtOk t) ∧
    (∀ c taskId hrs now s', tasksLogTime s c taskId hrs now = Except.ok s' →
      ∀ t ∈ s'.tasks, completedAtOk t) ∧
    (∀ c taskId now s', tasksRemove s c taskId now = Except.ok s' →
      ∀ t ∈ s'.tasks, completedAtOk t) := by
  refine ⟨?_, ?_, ?_, ?_, ?_⟩
  · intro c d newId now r hok t ht
    obtain ⟨uid, hc, hr⟩ := tasksInsert_ok s c d newId now r hok
    rw [hr, tasksInsertWrite_snd_tasks] at ht
    rcases List.mem_append.mp ht with h | h
    · exact hs t h
    · simp only [List.mem_singleton] at h
      subst h
      unfold completedAtOk newTaskOf
      simp
  · intro c taskId u now s' hok
    obtain ⟨uid, task, hc, hfind, hws⟩ := tasksUpdate_ok s c taskId u now s' hok
    constructor
    · intro t ht
      rw [hws, tasksUpdateWrite_tasks] at ht
      rcases List.mem_map.mp ht with ⟨t0, ht0, rfl⟩
      by_cases h0 : t0.id = taskId
      · rw [if_pos h0]
        have heq : t0 = task := mem_eq_of_findTask s taskId task hnd hfind t0 ht0 h0
        rw [heq]
        exact applyTaskUpdates_completedAtOk task u now
          (heq ▸ hs t0 ht0)
      · rw [if_neg h0]
        exact hs t0 ht0
    · intro task1 hfind1 t' ht' hid
      have htt : task1 = task := by
        rw [hfind] at hfind1
        injection hfind1 with h
        exact h.symm
      subst htt
      rw [hws, tasksUpdateWrite_tasks] at ht'
      rcases List.mem_map.mp ht' with ⟨t0, ht0, rfl⟩
      by_cases h0 : t0.id = taskId
      · rw [if_pos h0] at hid ⊢
        constructor
        · intro hstamp
          rw [applyTaskUpdates_completedAt, if_pos hstamp]
        · intro hunstamp
          rw [applyTaskUpdates_completedAt,
            if_neg (by simp [stampCond_false_of_unstamp u task1 hunstamp]),
            if_pos hunstamp]
      · rw [if_neg h0] at hid
        exact absurd hid h0
  · intro c taskId aid now s' hok t ht
    obtain ⟨uid, hc, hws⟩ := tasksAssign_ok s c taskId aid now s' hok
    rw [hws, tasksAssignWrite_tasks] at ht
    rcases List.mem_map.mp ht with ⟨t0, ht0, rfl⟩
    by_cases h0 : t0.id = taskId
    · rw [if_pos h0]
      exact hs t0 ht0
    · rw [if_neg h0]
      exact hs t0 ht0
  · intro c taskId hrs now s' hok t ht
    obtain ⟨uid, hc, hws⟩ := tasksLogTime_ok s c taskId hrs now s' hok
    rw [hws] at ht
    rcases List.mem_map.mp ht with ⟨t0, ht0, rfl⟩
    by_cases h0 : t0.id = taskId
    · rw [if_pos h0]
      exact hs t0 ht0
    · rw [if_neg h0]
      exact hs t0 ht0
  · intro c taskId now s' hok t ht
    obtain ⟨uid, hc, hws⟩ := tasksRemove_ok s c taskId now s' hok
    rw [hws] at ht
    exact hs t (List.mem_of_mem_filter ht)

/-- C3 witness: the invariant hypotheses hold of the concrete state s0
and the theorem applies there. -/
theorem C3_completedAt_lifecycle_witness :
    ((s0.tasks.map Task.id).Nodup ∧ (∀ t ∈ s0.tasks, completedAtOk t)) ∧
    ((∀ c d newId now r, tasksInsert s0 c d newId now = Except.ok r →
      ∀ t ∈ r.2.tasks, completedAtOk t) ∧
    (∀ c taskId u now s', tasksUpdate s0 c taskId u now = Except.ok s' →
      ((∀ t ∈ s'.tasks, completedAtOk t) ∧
       (∀ task, findTask s0 taskId = some task →
         ∀ t' ∈ s'.tasks, t'.id = taskId →
           (stampCond u task = true → t'.completedAt = some now) ∧
           (unstampCond u task = true → t'.completedAt = none)))) ∧
    (∀ c taskId aid now s', tasksAssign s0 c taskId aid now = Except.ok s' →
      ∀ t ∈ s'.tasks, completedAtOk t) ∧
    (∀ c taskId hrs now s', tasksLogTime s0 c taskId hrs now = Except.ok s' →
      ∀ t ∈ s'.tasks, completedAtOk t) ∧
    (∀ c taskId now s', tasksRemove s0 c taskId now = Except.ok s' →
      ∀ t ∈ s'.tasks, completedAtOk t)) :=
  ⟨⟨by decide, by decide⟩, C3_completedAt_lifecycle s0 (by decide) (by decide)⟩

end MeteorApp
